import Mathlib

/-!
Shallow embedding of the net-cache repository (src/common.cjs, src/index.cjs):
a TCP key-value cache with a fixed-header binary protocol.

Byte sequences (Node `Buffer`s) are modelled as `List Nat` with each element
`< 256`.  Keys are modelled by their UTF-8 byte sequences.  Multi-byte
integers are big-endian, written via `beBytes` (Buffer.writeUInt32BE /
writeBigUInt64BE) and read via `readBE` (Buffer.readUInt32BE).  Time is a
`Nat` of milliseconds; `setTimeout` expiry timers are modelled by storing the
deadline `now + maxLifetimeMs` and treating an entry as expired once the
deadline is reached (an idealised timer that fires exactly at its deadline).
-/

namespace NetCache

/-! ## Constants (src/common.cjs) -/

def MSG_WRITE : Nat := 0x00
def MSG_READ : Nat := 0x01
def MSG_READ_AND_DELETE : Nat := 0x02
def RES_OK : Nat := 0xa0
def RES_ERROR : Nat := 0xa1
def RES_NOT_FOUND : Nat := 0xa2
def END_MARKER : Nat := 0xff

/-! ## Big-endian integer encoding / decoding -/

/-- Big-endian encoding of `n` into `w` bytes (Buffer.writeUInt32BE /
writeBigUInt64BE: callers guarantee `n < 256 ^ w`). -/
def beBytes : Nat → Nat → List Nat
  | 0, _ => []
  | w + 1, n => (n / 256 ^ w) % 256 :: beBytes w n

/-- Big-endian value of a byte list. -/
def beVal (l : List Nat) : Nat := l.foldl (fun a b => 256 * a + b) 0

/-- Buffer.readUInt32BE-style read of `len` big-endian bytes at `off`. -/
def readBE (buf : List Nat) (off len : Nat) : Nat :=
  beVal ((buf.drop off).take len)

/-- UTF-8 byte sequence of a string (Buffer.from(s, 'utf8')).  All diagnostic
strings produced by this code are ASCII, where UTF-8 is one byte per
character equal to its code point. -/
def utf8Bytes (s : String) : List Nat := s.data.map Char.toNat

/-- Model of `n.toString(16)`: lowercase hexadecimal rendering of a number. -/
def hexString (n : Nat) : String := ⟨Nat.toDigits 16 n⟩

/-! ## Wire codec -/

/-- Request frame built by `NetCacheClient.#sendRequest`:
`id(8) | type(1) | keyLen(4) | valueLen(4) | key | value | endMarker(1)`. -/
def encodeRequest (msgId : List Nat) (msgType : Nat) (key value : List Nat) :
    List Nat :=
  msgId ++ [msgType] ++ beBytes 4 key.length ++ beBytes 4 value.length ++
    key ++ value ++ [END_MARKER]

/-- A structured response: id (8 bytes), status byte, payload bytes. -/
structure ResponseMsg where
  id : List Nat
  status : Nat
  payload : List Nat
  deriving Repr, DecidableEq

/-- Response frame bytes, as written by `#sendOk`, `#sendNotFound`,
`#sendOkWithPayload` and `#sendError`:
`id(8) | status(1) | payloadLen(4) | payload`. -/
def encodeResponse (r : ResponseMsg) : List Nat :=
  r.id ++ [r.status] ++ beBytes 4 r.payload.length ++ r.payload

/-! ## TTL store and server (class NetCacheServer) -/

/-- One cache entry: `{ value, timer }` where the `setTimeout` deletion timer
is modelled by its deadline `expiresAt = write-time + maxLifetimeMs`. -/
structure CacheEntry where
  value : List Nat
  expiresAt : Nat
  deriving Repr, DecidableEq

/-- Server state: `this.cache` (a `Map` modelled as an association list with
at most one binding per key) and `this.maxLifetimeMs`. -/
structure ServerState where
  cache : List (List Nat × CacheEntry)
  maxLifetimeMs : Nat
  deriving Repr, DecidableEq

/-- Model of `Map.prototype.get`. -/
def cacheGet (cache : List (List Nat × CacheEntry)) (key : List Nat) :
    Option CacheEntry :=
  (cache.find? (fun p => p.1 == key)).map (·.2)

/-- Remove the binding for `key` (`Map.prototype.delete`, and the replacement
half of `Map.prototype.set`). -/
def cacheErase (cache : List (List Nat × CacheEntry)) (key : List Nat) :
    List (List Nat × CacheEntry) :=
  cache.filter (fun p => !(p.1 == key))

/-- Model of `NetCacheServer.#write`: cancel any existing timer for `key`, schedule a
fresh expiry at `now + maxLifetimeMs`, and store the new value. -/
def serverWrite (s : ServerState) (now : Nat) (key value : List Nat) :
    ServerState :=
  { s with cache := (key, ⟨value, now + s.maxLifetimeMs⟩) :: cacheErase s.cache key }

/-- Model of `NetCacheServer.#handleMessage`: dispatch one parsed request, returning
the response written to the socket and the updated server state. -/
def handleMessage (s : ServerState) (now : Nat) (msgId : List Nat)
    (msgType : Nat) (key value : List Nat) : ResponseMsg × ServerState :=
  if msgType = MSG_WRITE then
    (⟨msgId, RES_OK, []⟩, serverWrite s now key value)
  else if msgType = MSG_READ then
    match cacheGet s.cache key with
    | some entry => (⟨msgId, RES_OK, entry.value⟩, s)
    | none => (⟨msgId, RES_NOT_FOUND, []⟩, s)
  else if msgType = MSG_READ_AND_DELETE then
    match cacheGet s.cache key with
    | some entry =>
        (⟨msgId, RES_OK, entry.value⟩, { s with cache := cacheErase s.cache key })
    | none => (⟨msgId, RES_NOT_FOUND, []⟩, s)
  else
    (⟨msgId, RES_ERROR,
      utf8Bytes ("Unknown message type: 0x" ++ hexString msgType)⟩, s)

/-- What the server's frame loop did with one extracted frame: a well-formed
request handed to `#handleMessage`, or a frame discarded for a bad end
marker. -/
inductive FrameResult where
  | ok (msgId : List Nat) (msgType : Nat) (key value : List Nat)
  | badMarker (msgId : List Nat)
  deriving Repr, DecidableEq

/-- Result of running the server's reassembly loop on a buffer. -/
structure ProcResult where
  frames : List FrameResult
  responses : List ResponseMsg
  state : ServerState
  rest : List Nat
  deriving Repr, DecidableEq

/-- Model of `NetCacheServer.#processBuffer`: repeatedly extract complete request
frames from `buffer` (header 17 bytes; total length `17 + keyLen + valueLen
+ 1`), verify the end marker, and handle each frame; stop as soon as fewer
bytes than one complete frame remain, returning them untouched. -/
def processBuffer (s : ServerState) (now : Nat) (buffer : List Nat) :
    ProcResult :=
  if h : buffer.length ≥ 17 then
    let keyLen := readBE buffer 9 4
    let valueLen := readBE buffer 13 4
    let totalLen := 17 + keyLen + valueLen + 1
    if h2 : buffer.length < totalLen then
      ⟨[], [], s, buffer⟩
    else if buffer.getD (totalLen - 1) 0 ≠ END_MARKER then
      let msgId := buffer.take 8
      let err : ResponseMsg := ⟨msgId, RES_ERROR, utf8Bytes "Invalid end marker"⟩
      let r := processBuffer s now (buffer.drop totalLen)
      ⟨.badMarker msgId :: r.frames, err :: r.responses, r.state, r.rest⟩
    else
      let msgId := buffer.take 8
      let msgType := buffer.getD 8 0
      let key := (buffer.drop 17).take keyLen
      let value := (buffer.drop (17 + keyLen)).take valueLen
      let rs := handleMessage s now msgId msgType key value
      let r := processBuffer rs.2 now (buffer.drop totalLen)
      ⟨.ok msgId msgType key value :: r.frames, rs.1 :: r.responses, r.state, r.rest⟩
  else
    ⟨[], [], s, buffer⟩
termination_by buffer.length
decreasing_by
  all_goals simp only [List.length_drop]; omega

/-- Per-connection state of `#handleConnection`: the server plus the residual
byte buffer. -/
structure ConnState where
  srv : ServerState
  residual : List Nat
  deriving Repr, DecidableEq

/-- One `'data'` event: append the chunk to the residual buffer and run
`#processBuffer`. -/
def feedChunk (c : ConnState) (now : Nat) (chunk : List Nat) :
    ProcResult :=
  processBuffer c.srv now (c.residual ++ chunk)

/-- Feed a sequence of chunks, accumulating extracted frames and responses. -/
def feedChunks (c : ConnState) (now : Nat) :
    List (List Nat) → List FrameResult × List ResponseMsg × ConnState
  | [] => ([], [], c)
  | chunk :: rest =>
      let r := feedChunk c now chunk
      let (fs, os, c') := feedChunks ⟨r.state, r.rest⟩ now rest
      (r.frames ++ fs, r.responses ++ os, c')

/-! ## Client (class NetCacheClient) -/

/-- Settlement of a pending request's promise. -/
inductive Outcome where
  /-- Outcome `pending.resolve(payload)` on an OK response. -/
  | resolved (msgId : List Nat) (payload : List Nat)
  /-- Outcome `pending.resolve(null)` on a NOT_FOUND response. -/
  | resolvedAbsent (msgId : List Nat)
  /-- Outcome `pending.reject(new Error(payload))` on any other status. -/
  | rejected (msgId : List Nat) (message : List Nat)
  /-- Outcome `pending.reject(new Error('Connection closed'))` from the close handler. -/
  | rejectedClosed (msgId : List Nat)
  /-- Outcome `pending.reject(new Error('Connection error: ...'))` from the
  error handler. -/
  | rejectedError (msgId : List Nat)
  deriving Repr, DecidableEq

/-- Client state: connection flags, the 64-bit id counter `this.nextId`, the
`this.pending` map (keyed by the id's hex string, which determines the 8-byte
id, so modelled as the list of pending ids in insertion order), and the
residual response buffer `this.buffer`. -/
structure ClientState where
  connected : Bool
  shouldReconnect : Bool
  nextId : Nat
  pending : List (List Nat)
  buffer : List Nat
  deriving Repr, DecidableEq

/-- Result of running the client's response reassembly loop. -/
structure ClientProcResult where
  /-- Each complete response frame parsed from the stream:
  `(msgId, status, payload)`. -/
  received : List (List Nat × Nat × List Nat)
  outcomes : List Outcome
  pending : List (List Nat)
  buffer : List Nat
  deriving Repr, DecidableEq

/-- One parsed response frame's effect on the pending map
(`NetCacheClient.#processBuffer` body after extraction): a matching pending
entry is removed and settled by status; otherwise the frame is dropped. -/
def settleResponse (pending : List (List Nat)) (msgId : List Nat)
    (status : Nat) (payload : List Nat) : List Outcome × List (List Nat) :=
  if pending.contains msgId then
    if status = RES_OK then ([.resolved msgId payload], pending.erase msgId)
    else if status = RES_NOT_FOUND then ([.resolvedAbsent msgId], pending.erase msgId)
    else ([.rejected msgId payload], pending.erase msgId)
  else ([], pending)

/-- Model of `NetCacheClient.#processBuffer`: repeatedly extract complete response
frames (header 13 bytes; total length `13 + payloadLen`), settling the
matching pending request for each; stop when fewer bytes than one complete
frame remain. -/
def clientProcessBuffer (pending : List (List Nat)) (buffer : List Nat) :
    ClientProcResult :=
  if _h : buffer.length ≥ 13 then
    let payloadLen := readBE buffer 9 4
    let totalLen := 13 + payloadLen
    if _h2 : buffer.length < totalLen then
      ⟨[], [], pending, buffer⟩
    else
      let msgId := buffer.take 8
      let status := buffer.getD 8 0
      let payload := (buffer.drop 13).take payloadLen
      let sr := settleResponse pending msgId status payload
      let r := clientProcessBuffer sr.2 (buffer.drop totalLen)
      ⟨(msgId, status, payload) :: r.received, sr.1 ++ r.outcomes, r.pending, r.buffer⟩
  else
    ⟨[], [], pending, buffer⟩
termination_by buffer.length
decreasing_by
  simp only [List.length_drop]; omega

/-- The client's `'data'` handler: append the chunk and run
`#processBuffer`. -/
def clientFeedChunk (c : ClientState) (chunk : List Nat) :
    List (List Nat × Nat × List Nat) × List Outcome × ClientState :=
  let r := clientProcessBuffer c.pending (c.buffer ++ chunk)
  (r.received, r.outcomes, { c with pending := r.pending, buffer := r.buffer })

/-- The `'close'` handler of `#doConnect`: mark disconnected, reject every
pending request with "Connection closed", and clear the pending map.  (The
id counter `nextId` and the residual buffer are not touched.) -/
def handleClose (c : ClientState) : List Outcome × ClientState :=
  (c.pending.map .rejectedClosed,
   { c with connected := false, pending := [] })

/-- The `'error'` handler of `#doConnect`: reject every pending request with
"Connection error: ..." and clear the pending map. -/
def handleSocketError (c : ClientState) : List Outcome × ClientState :=
  (c.pending.map .rejectedError, { c with pending := [] })

/-- Model of `NetCacheClient.#nextMsgId`: post-increment `this.nextId` and render it
as 8 big-endian bytes (`writeBigUInt64BE`). -/
def nextMsgId (c : ClientState) : List Nat × ClientState :=
  (beBytes 8 c.nextId, { c with nextId := c.nextId + 1 })

/-- Model of `NetCacheClient.#sendRequest`: `none` models the immediate
`reject(new Error('Not connected'))`; otherwise allocate an id, register a
pending entry, and return the encoded frame written to the socket. -/
def sendRequest (c : ClientState) (msgType : Nat) (key value : List Nat) :
    Option (List Nat × List Nat × ClientState) :=
  if c.connected then
    let (msgId, c') := nextMsgId c
    some (msgId, encodeRequest msgId msgType key value,
          { c' with pending := c'.pending ++ [msgId] })
  else
    none

/-- The cache as observed at time `now`: every entry whose `setTimeout`
deletion timer (deadline `expiresAt`) has already fired is gone (timers
modelled as firing exactly at their deadline). -/
def liveCache (s : ServerState) (now : Nat) : List (List Nat × CacheEntry) :=
  s.cache.filter (fun p => decide (now < p.2.expiresAt))

/-- The value a READ performed at time `now` observes for `key`, after all
due expiry timers have fired. -/
def readAt (s : ServerState) (now : Nat) (key : List Nat) : Option (List Nat) :=
  (cacheGet (liveCache s now) key).map (fun e => e.value)

/-! ## Big-endian encoding lemmas -/

theorem beBytes_length (w n : Nat) : (beBytes w n).length = w := by
  induction w generalizing n with
  | zero => rfl
  | succ w ih => simp [beBytes, ih]

theorem beBytes_lt (w n : Nat) : ∀ b ∈ beBytes w n, b < 256 := by
  induction w generalizing n with
  | zero => simp [beBytes]
  | succ w ih =>
    intro b hb
    simp only [beBytes, List.mem_cons] at hb
    rcases hb with h | h
    · subst h; exact Nat.mod_lt _ (by norm_num)
    · exact ih n b h

theorem foldl_beBytes (w n a : Nat) :
    (beBytes w n).foldl (fun a b => 256 * a + b) a = a * 256 ^ w + n % 256 ^ w := by
  induction w generalizing a with
  | zero => simp [beBytes, Nat.mod_one]
  | succ w ih =>
    have hsplit : n % 256 ^ (w + 1) = 256 ^ w * (n / 256 ^ w % 256) + n % 256 ^ w := by
      calc n % 256 ^ (w + 1) = n % (256 ^ w * 256) := by ring_nf
        _ = 256 ^ w * (n / 256 ^ w % 256) + n % 256 ^ w := by
              rw [Nat.mod_mul]; ring
    simp only [beBytes, List.foldl_cons, ih]
    rw [hsplit]; ring

/-- Round-trip: the big-endian value of the `w`-byte encoding of `n < 256 ^ w`
is `n` itself. -/
theorem beVal_beBytes (w n : Nat) (h : n < 256 ^ w) : beVal (beBytes w n) = n := by
  unfold beVal
  rw [foldl_beBytes]
  simp [Nat.mod_eq_of_lt h]

/-! ## Buffer extraction lemmas -/

theorem readBE_append (pre mid post : List Nat) (off len : Nat)
    (h1 : pre.length = off) (h2 : mid.length = len) :
    readBE (pre ++ mid ++ post) off len = beVal mid := by
  rw [readBE, List.append_assoc, List.drop_left' h1, List.take_left' h2]

theorem extract_append (pre mid post : List Nat) (off len : Nat)
    (h1 : pre.length = off) (h2 : mid.length = len) :
    ((pre ++ mid ++ post).drop off).take len = mid := by
  rw [List.append_assoc, List.drop_left' h1, List.take_left' h2]

theorem getD_append_at (pre : List Nat) (b : Nat) (post : List Nat) (n d : Nat)
    (h : pre.length = n) : (pre ++ b :: post).getD n d = b := by
  subst h
  rw [List.getD_append_right _ _ _ _ le_rfl, Nat.sub_self]
  rfl

theorem beVal_beBytes4 (n : Nat) (h : n < 2 ^ 32) : beVal (beBytes 4 n) = n :=
  beVal_beBytes 4 n (by norm_num at h ⊢; omega)

theorem beVal_beBytes8 (n : Nat) (h : n < 2 ^ 64) : beVal (beBytes 8 n) = n :=
  beVal_beBytes 8 n (by norm_num at h ⊢; omega)

section RequestFrame

variable (msgId : List Nat) (msgType : Nat) (key value t : List Nat)

theorem encodeRequest_eq :
    encodeRequest msgId msgType key value ++ t =
      msgId ++ ([msgType] ++ (beBytes 4 key.length ++ (beBytes 4 value.length ++
        (key ++ (value ++ ([END_MARKER] ++ t)))))) := by
  simp [encodeRequest]

theorem length_encodeRequest (hid : msgId.length = 8) :
    (encodeRequest msgId msgType key value).length =
      18 + key.length + value.length := by
  simp [encodeRequest, beBytes_length, hid]
  omega

theorem req_keyLen (hid : msgId.length = 8) (hk : key.length < 2 ^ 32) :
    readBE (encodeRequest msgId msgType key value ++ t) 9 4 = key.length := by
  have he : encodeRequest msgId msgType key value ++ t =
      (msgId ++ [msgType]) ++ beBytes 4 key.length ++
        (beBytes 4 value.length ++ (key ++ (value ++ ([END_MARKER] ++ t)))) := by
    simp [encodeRequest]
  rw [he, readBE_append _ _ _ _ _ (by simp [hid]) (beBytes_length 4 _)]
  exact beVal_beBytes4 _ hk

theorem req_valueLen (hid : msgId.length = 8) (hv : value.length < 2 ^ 32) :
    readBE (encodeRequest msgId msgType key value ++ t) 13 4 = value.length := by
  have he : encodeRequest msgId msgType key value ++ t =
      (msgId ++ [msgType] ++ beBytes 4 key.length) ++ beBytes 4 value.length ++
        (key ++ (value ++ ([END_MARKER] ++ t))) := by
    simp [encodeRequest]
  rw [he, readBE_append _ _ _ _ _ (by simp [hid, beBytes_length])
    (beBytes_length 4 _)]
  exact beVal_beBytes4 _ hv

theorem req_msgId (hid : msgId.length = 8) :
    (encodeRequest msgId msgType key value ++ t).take 8 = msgId := by
  rw [encodeRequest_eq, List.take_left' hid]

theorem req_msgType (hid : msgId.length = 8) :
    (encodeRequest msgId msgType key value ++ t).getD 8 0 = msgType := by
  rw [encodeRequest_eq]
  exact getD_append_at msgId msgType _ 8 0 hid

theorem req_key (hid : msgId.length = 8) :
    ((encodeRequest msgId msgType key value ++ t).drop 17).take key.length =
      key := by
  have he : encodeRequest msgId msgType key value ++ t =
      (msgId ++ [msgType] ++ beBytes 4 key.length ++ beBytes 4 value.length) ++
        key ++ (value ++ ([END_MARKER] ++ t)) := by
    simp [encodeRequest]
  rw [he]
  exact extract_append _ _ _ _ _ (by simp [hid, beBytes_length]) rfl

theorem req_value (hid : msgId.length = 8) :
    ((encodeRequest msgId msgType key value ++ t).drop
        (17 + key.length)).take value.length = value := by
  have he : encodeRequest msgId msgType key value ++ t =
      (msgId ++ [msgType] ++ beBytes 4 key.length ++ beBytes 4 value.length ++
        key) ++ value ++ ([END_MARKER] ++ t) := by
    simp [encodeRequest]
  rw [he]
  exact extract_append _ _ _ _ _ (by simp [hid, beBytes_length]; omega) rfl

theorem req_marker (hid : msgId.length = 8) :
    (encodeRequest msgId msgType key value ++ t).getD
        (17 + key.length + value.length) 0 = END_MARKER := by
  have he : encodeRequest msgId msgType key value ++ t =
      (msgId ++ [msgType] ++ beBytes 4 key.length ++ beBytes 4 value.length ++
        key ++ value) ++ END_MARKER :: t := by
    simp [encodeRequest]
  rw [he]
  exact getD_append_at _ END_MARKER _ _ 0 (by simp [hid, beBytes_length]; omega)

theorem req_drop_total (hid : msgId.length = 8) :
    (encodeRequest msgId msgType key value ++ t).drop
        (17 + key.length + value.length + 1) = t :=
  List.drop_left' (by rw [length_encodeRequest msgId msgType key value hid]; omega)

theorem req_length (hid : msgId.length = 8) :
    (encodeRequest msgId msgType key value ++ t).length =
      18 + key.length + value.length + t.length := by
  rw [List.length_append, length_encodeRequest msgId msgType key value hid]

theorem req_keyLen_plain (hid : msgId.length = 8) (hk : key.length < 2 ^ 32) :
    readBE (encodeRequest msgId msgType key value) 9 4 = key.length := by
  have := req_keyLen msgId msgType key value [] hid hk
  rwa [List.append_nil] at this

theorem req_valueLen_plain (hid : msgId.length = 8) (hv : value.length < 2 ^ 32) :
    readBE (encodeRequest msgId msgType key value) 13 4 = value.length := by
  have := req_valueLen msgId msgType key value [] hid hv
  rwa [List.append_nil] at this

end RequestFrame

/-- Reading inside a long enough take is reading the original buffer. -/
theorem readBE_take (buf : List Nat) (m off len : Nat) (h : off + len ≤ m) :
    readBE (buf.take m) off len = readBE buf off len := by
  rw [readBE, readBE, List.drop_take, List.take_take,
    min_eq_left (by omega : len ≤ m - off)]

/-- Reading a field lying wholly inside the left part of an append. -/
theorem readBE_append_left (u t : List Nat) (off len : Nat)
    (h : off + len ≤ u.length) :
    readBE (u ++ t) off len = readBE u off len := by
  rw [readBE, readBE, List.drop_append_of_le_length (by omega),
    List.take_append_of_le_length (by simp [List.length_drop]; omega)]

/-! ## Server reassembly loop: step lemmas -/

/-- With fewer than the 17 header bytes buffered, the loop consumes nothing. -/
theorem processBuffer_short (s : ServerState) (now : Nat) (buffer : List Nat)
    (h : buffer.length < 17) : processBuffer s now buffer = ⟨[], [], s, buffer⟩ := by
  rw [processBuffer.eq_def]
  simp [show ¬ buffer.length ≥ 17 by omega]

/-- A complete well-formed request frame at the head of the buffer is
extracted, handled, and exactly its bytes consumed. -/
theorem processBuffer_frame (s : ServerState) (now : Nat) (msgId : List Nat)
    (msgType : Nat) (key value t : List Nat) (hid : msgId.length = 8)
    (hk : key.length < 2 ^ 32) (hv : value.length < 2 ^ 32) :
    processBuffer s now (encodeRequest msgId msgType key value ++ t) =
      { frames := .ok msgId msgType key value ::
          (processBuffer (handleMessage s now msgId msgType key value).2 now t).frames,
        responses := (handleMessage s now msgId msgType key value).1 ::
          (processBuffer (handleMessage s now msgId msgType key value).2 now t).responses,
        state := (processBuffer (handleMessage s now msgId msgType key value).2 now t).state,
        rest := (processBuffer (handleMessage s now msgId msgType key value).2 now t).rest } := by
  rw [processBuffer.eq_def]
  simp only [req_keyLen _ _ _ _ t hid hk, req_valueLen _ _ _ _ t hid hv,
    req_length _ _ _ _ t hid, req_msgId _ _ _ _ t hid, req_msgType _ _ _ _ t hid,
    req_key _ _ _ _ t hid, req_value _ _ _ _ t hid, Nat.add_sub_cancel,
    req_marker _ _ _ _ t hid, req_drop_total _ _ _ _ t hid]
  rw [dif_pos (by omega), dif_neg (by omega), if_neg (by simp)]

/-- A complete frame whose byte at the header-computed boundary is not the
end marker: the server sends one ERROR for that frame's id, consumes exactly
that frame's bytes, and continues with the rest of the stream. -/
theorem processBuffer_badMarker (s : ServerState) (now : Nat) (u t : List Nat)
    (hlen : u.length = 18 + readBE u 9 4 + readBE u 13 4)
    (hb : u.getD (u.length - 1) 0 ≠ END_MARKER) :
    processBuffer s now (u ++ t) =
      { frames := .badMarker (u.take 8) :: (processBuffer s now t).frames,
        responses := ⟨u.take 8, RES_ERROR, utf8Bytes "Invalid end marker"⟩ ::
          (processBuffer s now t).responses,
        state := (processBuffer s now t).state,
        rest := (processBuffer s now t).rest } := by
  have h9 : readBE (u ++ t) 9 4 = readBE u 9 4 :=
    readBE_append_left u t 9 4 (by omega)
  have h13 : readBE (u ++ t) 13 4 = readBE u 13 4 :=
    readBE_append_left u t 13 4 (by omega)
  have hmark : (u ++ t).getD (17 + readBE u 9 4 + readBE u 13 4 + 1 - 1) 0 =
      u.getD (u.length - 1) 0 := by
    rw [List.getD_append _ _ _ _ (by omega)]
    congr 1
    omega
  have htake : (u ++ t).take 8 = u.take 8 :=
    List.take_append_of_le_length (by omega)
  have hdrop : (u ++ t).drop (17 + readBE u 9 4 + readBE u 13 4 + 1) = t :=
    List.drop_left' (by omega)
  rw [processBuffer.eq_def]
  simp only [h9, h13, List.length_append]
  rw [dif_pos (by omega), dif_neg (by omega), if_pos (by rw [hmark]; exact hb),
    htake, hdrop]

/-- A strict prefix of a well-formed request frame is left in the buffer
untouched: nothing is consumed, no frame is extracted, no response sent. -/
theorem processBuffer_incomplete (s : ServerState) (now : Nat) (msgId : List Nat)
    (msgType : Nat) (key value p : List Nat) (hid : msgId.length = 8)
    (hk : key.length < 2 ^ 32) (hv : value.length < 2 ^ 32)
    (hpre : p <+: encodeRequest msgId msgType key value)
    (hne : p ≠ encodeRequest msgId msgType key value) :
    processBuffer s now p = ⟨[], [], s, p⟩ := by
  have hfl : (encodeRequest msgId msgType key value).length =
      18 + key.length + value.length := length_encodeRequest _ _ _ _ hid
  have hlt : p.length < 18 + key.length + value.length := by
    have h1 := hpre.length_le
    have h2 : p.length ≠ (encodeRequest msgId msgType key value).length :=
      fun h => hne (hpre.eq_of_length h)
    omega
  rcases Nat.lt_or_ge p.length 17 with hshort | hge
  · exact processBuffer_short s now p hshort
  · have hp : p = (encodeRequest msgId msgType key value).take p.length :=
      List.prefix_iff_eq_take.mp hpre
    have h9 : readBE p 9 4 = key.length := by
      conv_lhs => rw [hp]
      rw [readBE_take _ _ _ _ (by omega)]
      exact req_keyLen_plain msgId msgType key value hid hk
    have h13 : readBE p 13 4 = value.length := by
      conv_lhs => rw [hp]
      rw [readBE_take _ _ _ _ (by omega)]
      exact req_valueLen_plain msgId msgType key value hid hv
    rw [processBuffer.eq_def]
    simp only [h9, h13]
    rw [dif_pos hge, dif_pos (by omega)]

theorem flatten_ne_nil {l : List (List Nat)} (h0 : l ≠ [])
    (h : ∀ c ∈ l, c ≠ []) : l.flatten ≠ [] := by
  cases l with
  | nil => exact absurd rfl h0
  | cons c cs =>
    have hc : c ≠ [] := h c (List.mem_cons_self c cs)
    simp only [List.flatten_cons, ne_eq, List.append_eq_nil]
    intro hcontra
    exact hc hcontra.1

/-- Feeding any chunk partition of a single well-formed frame, on top of a
residual strict prefix `p` of that frame, yields exactly the one extracted
request, its response, and an empty residual buffer. -/
theorem feedChunks_assemble (now : Nat) (msgId : List Nat) (msgType : Nat)
    (key value : List Nat) (hid : msgId.length = 8)
    (hk : key.length < 2 ^ 32) (hv : value.length < 2 ^ 32) :
    ∀ (chunks : List (List Nat)) (s : ServerState) (p : List Nat),
      p ++ chunks.flatten = encodeRequest msgId msgType key value →
      p ≠ encodeRequest msgId msgType key value →
      (∀ c ∈ chunks, c ≠ []) →
      feedChunks ⟨s, p⟩ now chunks =
        ([.ok msgId msgType key value],
         [(handleMessage s now msgId msgType key value).1],
         ⟨(handleMessage s now msgId msgType key value).2, []⟩) := by
  intro chunks
  induction chunks with
  | nil =>
    intro s p hjoin hne _
    rw [List.flatten_nil, List.append_nil] at hjoin
    exact absurd hjoin hne
  | cons c cs ih =>
    intro s p hjoin hne hchunks
    rw [List.flatten_cons, ← List.append_assoc] at hjoin
    by_cases hcs : cs = []
    · subst hcs
      rw [List.flatten_nil, List.append_nil] at hjoin
      have hfeed : feedChunk ⟨s, p⟩ now c =
          { frames := [.ok msgId msgType key value],
            responses := [(handleMessage s now msgId msgType key value).1],
            state := (handleMessage s now msgId msgType key value).2,
            rest := [] } := by
        rw [feedChunk]
        show processBuffer s now (p ++ c) = _
        rw [hjoin, ← List.append_nil (encodeRequest msgId msgType key value),
          processBuffer_frame s now msgId msgType key value [] hid hk hv,
          processBuffer_short _ now [] (by simp)]
      rw [feedChunks, hfeed]
      simp [feedChunks]
    · have hjne : cs.flatten ≠ [] :=
        flatten_ne_nil hcs (fun x hx => hchunks x (List.mem_cons_of_mem c hx))
      have hpre : p ++ c <+: encodeRequest msgId msgType key value :=
        ⟨cs.flatten, hjoin⟩
      have hplt : p ++ c ≠ encodeRequest msgId msgType key value := by
        intro hcontra
        rw [← hjoin] at hcontra
        have : cs.flatten = [] := by
          have := congrArg List.length hcontra
          simp only [List.length_append] at this
          exact List.length_eq_zero.mp (by omega)
        exact hjne this
      have hfeed : feedChunk ⟨s, p⟩ now c = ⟨[], [], s, p ++ c⟩ := by
        rw [feedChunk]
        exact processBuffer_incomplete s now msgId msgType key value (p ++ c)
          hid hk hv hpre hplt
      rw [feedChunks, hfeed]
      have hrest := ih s (p ++ c) hjoin hplt
        (fun x hx => hchunks x (List.mem_cons_of_mem c hx))
      rw [hrest]
      simp


/-! ## Response frame extraction and client loop step lemmas -/

section ResponseFrame

variable (r : ResponseMsg) (t : List Nat)

theorem resp_payloadLen (hid : r.id.length = 8)
    (hpl : r.payload.length < 2 ^ 32) :
    readBE (encodeResponse r ++ t) 9 4 = r.payload.length := by
  have he : encodeResponse r ++ t =
      (r.id ++ [r.status]) ++ beBytes 4 r.payload.length ++ (r.payload ++ t) := by
    simp [encodeResponse]
  rw [he, readBE_append _ _ _ _ _ (by simp [hid]) (beBytes_length 4 _)]
  exact beVal_beBytes4 _ hpl

theorem resp_msgId (hid : r.id.length = 8) :
    (encodeResponse r ++ t).take 8 = r.id := by
  have he : encodeResponse r ++ t =
      r.id ++ ([r.status] ++ (beBytes 4 r.payload.length ++ (r.payload ++ t))) := by
    simp [encodeResponse]
  rw [he, List.take_left' hid]

theorem resp_status (hid : r.id.length = 8) :
    (encodeResponse r ++ t).getD 8 0 = r.status := by
  have he : encodeResponse r ++ t =
      r.id ++ r.status :: (beBytes 4 r.payload.length ++ (r.payload ++ t)) := by
    simp [encodeResponse]
  rw [he]
  exact getD_append_at r.id r.status _ 8 0 hid

theorem resp_payload (hid : r.id.length = 8) :
    ((encodeResponse r ++ t).drop 13).take r.payload.length = r.payload := by
  have he : encodeResponse r ++ t =
      (r.id ++ [r.status] ++ beBytes 4 r.payload.length) ++ r.payload ++ t := by
    simp [encodeResponse]
  rw [he]
  exact extract_append _ _ _ _ _ (by simp [hid, beBytes_length]) rfl

theorem resp_length (hid : r.id.length = 8) :
    (encodeResponse r ++ t).length = 13 + r.payload.length + t.length := by
  simp [encodeResponse, beBytes_length, hid]
  omega

theorem resp_drop_total (hid : r.id.length = 8) :
    (encodeResponse r ++ t).drop (13 + r.payload.length) = t :=
  List.drop_left' (by simp [encodeResponse, beBytes_length, hid]; omega)

end ResponseFrame

/-- With fewer than the 13 header bytes buffered, the client loop consumes
nothing. -/
theorem clientProcessBuffer_short (pending : List (List Nat))
    (buffer : List Nat) (h : buffer.length < 13) :
    clientProcessBuffer pending buffer = ⟨[], [], pending, buffer⟩ := by
  rw [clientProcessBuffer.eq_def]
  simp [show ¬ buffer.length ≥ 13 by omega]

/-- A complete response frame at the head of the client buffer is parsed,
settled against the pending map, and exactly its bytes consumed. -/
theorem clientProcessBuffer_frame (pending : List (List Nat))
    (r : ResponseMsg) (t : List Nat) (hid : r.id.length = 8)
    (hpl : r.payload.length < 2 ^ 32) :
    clientProcessBuffer pending (encodeResponse r ++ t) =
      { received := (r.id, r.status, r.payload) ::
          (clientProcessBuffer (settleResponse pending r.id r.status r.payload).2 t).received,
        outcomes := (settleResponse pending r.id r.status r.payload).1 ++
          (clientProcessBuffer (settleResponse pending r.id r.status r.payload).2 t).outcomes,
        pending := (clientProcessBuffer (settleResponse pending r.id r.status r.payload).2 t).pending,
        buffer := (clientProcessBuffer (settleResponse pending r.id r.status r.payload).2 t).buffer } := by
  rw [clientProcessBuffer.eq_def]
  simp only [resp_payloadLen r t hid hpl, resp_length r t hid,
    resp_msgId r t hid, resp_status r t hid, resp_payload r t hid,
    resp_drop_total r t hid]
  rw [dif_pos (by omega), dif_neg (by omega)]



/-! ## TTL store lemmas -/

theorem cacheGet_cons_self (key : List Nat) (e : CacheEntry)
    (c : List (List Nat × CacheEntry)) :
    cacheGet ((key, e) :: c) key = some e := by
  simp [cacheGet, List.find?]

theorem filter_key_cacheErase (c : List (List Nat × CacheEntry))
    (key : List Nat) :
    (cacheErase c key).filter (fun p => p.1 == key) = [] := by
  rw [List.filter_eq_nil_iff]
  intro a ha
  have := (List.mem_filter.mp ha).2
  simp at this ⊢
  exact this

theorem cacheGet_cacheErase (c : List (List Nat × CacheEntry))
    (key : List Nat) :
    cacheGet (cacheErase c key) key = none := by
  rw [cacheGet, Option.map_eq_none', List.find?_eq_none]
  intro a ha
  have := (List.mem_filter.mp ha).2
  simp at this ⊢
  exact this

theorem cacheGet_filter_cacheErase (c : List (List Nat × CacheEntry))
    (key : List Nat) (q : List Nat × CacheEntry → Bool) :
    cacheGet ((cacheErase c key).filter q) key = none := by
  rw [cacheGet, Option.map_eq_none', List.find?_eq_none]
  intro a ha
  have := (List.mem_filter.mp (List.mem_filter.mp ha).1).2
  simp at this ⊢
  exact this


/-! ## Claims -/

/-- C1: encoding a request record with the client's request encoder and
decoding the bytes with the server's frame parser yields the original id,
type, key and value; encoding a response record with the server's response
encoders and decoding with the client's response parser yields the original
id, status and payload. -/
theorem c1_codec_round_trip (s : ServerState) (now : Nat)
    (msgId : List Nat) (msgType : Nat) (key value : List Nat)
    (pending : List (List Nat)) (r : ResponseMsg)
    (hid : msgId.length = 8) (_hidb : ∀ b ∈ msgId, b < 256)
    (_hty : msgType < 256)
    (hk : key.length < 2 ^ 32) (_hkb : ∀ b ∈ key, b < 256)
    (hv : value.length < 2 ^ 32) (_hvb : ∀ b ∈ value, b < 256)
    (hrid : r.id.length = 8) (_hridb : ∀ b ∈ r.id, b < 256)
    (_hst : r.status < 256) (hpl : r.payload.length < 2 ^ 32)
    (_hplb : ∀ b ∈ r.payload, b < 256) :
    (processBuffer s now (encodeRequest msgId msgType key value)).frames =
      [.ok msgId msgType key value] ∧
    (processBuffer s now (encodeRequest msgId msgType key value)).rest = [] ∧
    (clientProcessBuffer pending (encodeResponse r)).received =
      [(r.id, r.status, r.payload)] ∧
    (clientProcessBuffer pending (encodeResponse r)).buffer = [] := by
  have h1 := processBuffer_frame s now msgId msgType key value [] hid hk hv
  rw [List.append_nil] at h1
  have h2 := clientProcessBuffer_frame pending r [] hrid hpl
  rw [List.append_nil] at h2
  rw [h1, h2]
  simp [processBuffer_short _ now [] (by simp),
    clientProcessBuffer_short _ [] (by simp)]

/-- C1 witness: a concrete WRITE("k", "v") request and a concrete OK
response round-trip through encoder and parser. -/
theorem c1_codec_round_trip_witness :
    (processBuffer ⟨[], 60000⟩ 0
        (encodeRequest [0, 0, 0, 0, 0, 0, 0, 1] 0 [107] [118])).frames =
      [.ok [0, 0, 0, 0, 0, 0, 0, 1] 0 [107] [118]] ∧
    (processBuffer ⟨[], 60000⟩ 0
        (encodeRequest [0, 0, 0, 0, 0, 0, 0, 1] 0 [107] [118])).rest = [] ∧
    (clientProcessBuffer [[0, 0, 0, 0, 0, 0, 0, 1]]
        (encodeResponse ⟨[0, 0, 0, 0, 0, 0, 0, 1], 0xa0, [118]⟩)).received =
      [([0, 0, 0, 0, 0, 0, 0, 1], 0xa0, [118])] ∧
    (clientProcessBuffer [[0, 0, 0, 0, 0, 0, 0, 1]]
        (encodeResponse ⟨[0, 0, 0, 0, 0, 0, 0, 1], 0xa0, [118]⟩)).buffer = [] :=
  c1_codec_round_trip ⟨[], 60000⟩ 0 [0, 0, 0, 0, 0, 0, 0, 1] 0 [107] [118]
    [[0, 0, 0, 0, 0, 0, 0, 1]] ⟨[0, 0, 0, 0, 0, 0, 0, 1], 0xa0, [118]⟩
    (by decide) (by decide) (by decide) (by decide) (by decide) (by decide)
    (by decide) (by decide) (by decide) (by decide) (by decide) (by decide)

/-- C2: delivering one well-formed encoded request frame as any sequence of
non-empty chunks produces exactly one extracted request, identical to
delivering the whole frame in one chunk, and a strict prefix of a frame is
never consumed while waiting for more data. -/
theorem c2_fragmentation_invariance (s : ServerState) (now : Nat)
    (msgId : List Nat) (msgType : Nat) (key value : List Nat)
    (chunks : List (List Nat))
    (hid : msgId.length = 8) (hk : key.length < 2 ^ 32)
    (hv : value.length < 2 ^ 32)
    (hjoin : chunks.flatten = encodeRequest msgId msgType key value)
    (hne : ∀ c ∈ chunks, c ≠ []) :
    feedChunks ⟨s, []⟩ now chunks =
      ([.ok msgId msgType key value],
       [(handleMessage s now msgId msgType key value).1],
       ⟨(handleMessage s now msgId msgType key value).2, []⟩) ∧
    feedChunk ⟨s, []⟩ now (encodeRequest msgId msgType key value) =
      { frames := [.ok msgId msgType key value],
        responses := [(handleMessage s now msgId msgType key value).1],
        state := (handleMessage s now msgId msgType key value).2,
        rest := [] } ∧
    (∀ p, p <+: encodeRequest msgId msgType key value →
      p ≠ encodeRequest msgId msgType key value →
      processBuffer s now p = ⟨[], [], s, p⟩) := by
  have hfne : encodeRequest msgId msgType key value ≠ [] := by
    intro h
    have := congrArg List.length h
    rw [length_encodeRequest msgId msgType key value hid] at this
    simp at this
  refine ⟨?_, ?_, ?_⟩
  · exact feedChunks_assemble now msgId msgType key value hid hk hv chunks s []
      (by simpa using hjoin) (fun h => hfne h.symm) hne
  · rw [feedChunk]
    show processBuffer s now (encodeRequest msgId msgType key value) = _
    rw [← List.append_nil (encodeRequest msgId msgType key value),
      processBuffer_frame s now msgId msgType key value [] hid hk hv,
      processBuffer_short _ now [] (by simp)]
  · intro p hp hpne
    exact processBuffer_incomplete s now msgId msgType key value p hid hk hv hp hpne


/-- C2 witness: the concrete WRITE("k","v") frame delivered one byte at a
time produces the same single extracted request as delivered whole, and a
5-byte prefix of it is left unconsumed. -/
theorem c2_fragmentation_invariance_witness :
    feedChunks ⟨⟨[], 60000⟩, []⟩ 0
        [[0], [0], [0], [0], [0], [0], [0], [1], [0], [0], [0], [0], [1],
         [0], [0], [0], [1], [107], [118], [255]] =
      ([.ok [0, 0, 0, 0, 0, 0, 0, 1] 0 [107] [118]],
       [(handleMessage ⟨[], 60000⟩ 0 [0, 0, 0, 0, 0, 0, 0, 1] 0 [107] [118]).1],
       ⟨(handleMessage ⟨[], 60000⟩ 0 [0, 0, 0, 0, 0, 0, 0, 1] 0 [107] [118]).2,
        []⟩) ∧
    processBuffer ⟨[], 60000⟩ 0 [0, 0, 0, 0, 0] =
      ⟨[], [], ⟨[], 60000⟩, [0, 0, 0, 0, 0]⟩ := by
  have h := c2_fragmentation_invariance ⟨[], 60000⟩ 0
    [0, 0, 0, 0, 0, 0, 0, 1] 0 [107] [118]
    [[0], [0], [0], [0], [0], [0], [0], [1], [0], [0], [0], [0], [1],
     [0], [0], [0], [1], [107], [118], [255]]
    (by decide) (by decide) (by decide) (by decide) (by decide)
  exact ⟨h.1, h.2.2 [0, 0, 0, 0, 0] (by decide) (by decide)⟩

/-- C3: READ replies OK with the stored value when a live entry exists, and
NOT_FOUND with empty payload otherwise; in both cases the server state,
including the entry's expiry deadline, is unchanged. -/
theorem c3_read (s : ServerState) (now : Nat) (msgId key value : List Nat) :
    (∀ entry, cacheGet s.cache key = some entry →
      handleMessage s now msgId MSG_READ key value =
        (⟨msgId, RES_OK, entry.value⟩, s)) ∧
    (cacheGet s.cache key = none →
      handleMessage s now msgId MSG_READ key value =
        (⟨msgId, RES_NOT_FOUND, []⟩, s)) := by
  constructor
  · intro entry h
    simp [handleMessage, MSG_READ, MSG_WRITE, MSG_READ_AND_DELETE, h]
  · intro h
    simp [handleMessage, MSG_READ, MSG_WRITE, MSG_READ_AND_DELETE, h]

/-- C3 witness: READ of a present key returns OK with its value and leaves
the state intact; READ of an absent key returns NOT_FOUND. -/
theorem c3_read_witness :
    handleMessage ⟨[([107], ⟨[118], 60⟩)], 60000⟩ 5
        [0, 0, 0, 0, 0, 0, 0, 2] MSG_READ [107] [] =
      (⟨[0, 0, 0, 0, 0, 0, 0, 2], RES_OK, [118]⟩,
       ⟨[([107], ⟨[118], 60⟩)], 60000⟩) ∧
    handleMessage ⟨[], 60000⟩ 5 [0, 0, 0, 0, 0, 0, 0, 3] MSG_READ [109] [] =
      (⟨[0, 0, 0, 0, 0, 0, 0, 3], RES_NOT_FOUND, []⟩, ⟨[], 60000⟩) :=
  ⟨(c3_read ⟨[([107], ⟨[118], 60⟩)], 60000⟩ 5 [0, 0, 0, 0, 0, 0, 0, 2]
      [107] []).1 ⟨[118], 60⟩ (by decide),
   (c3_read ⟨[], 60000⟩ 5 [0, 0, 0, 0, 0, 0, 0, 3] [109] []).2 (by decide)⟩

/-- C4: every WRITE is answered OK with empty payload, and writing the same
key twice leaves exactly one entry for that key, holding the second value
with its deadline measured from the second write. -/
theorem c4_write_overwrite (s : ServerState) (now now2 : Nat)
    (msgId msgId2 key v1 v2 : List Nat) :
    handleMessage s now msgId MSG_WRITE key v1 =
      (⟨msgId, RES_OK, []⟩, serverWrite s now key v1) ∧
    (handleMessage (handleMessage s now msgId MSG_WRITE key v1).2
        now2 msgId2 MSG_WRITE key v2).1 = ⟨msgId2, RES_OK, []⟩ ∧
    (handleMessage (handleMessage s now msgId MSG_WRITE key v1).2
        now2 msgId2 MSG_WRITE key v2).2.cache.filter (fun p => p.1 == key) =
      [(key, ⟨v2, now2 + s.maxLifetimeMs⟩)] := by
  refine ⟨by simp [handleMessage, MSG_WRITE], by simp [handleMessage, MSG_WRITE], ?_⟩
  simp [handleMessage, MSG_WRITE, serverWrite, filter_key_cacheErase]

/-- C5: READ_AND_DELETE on a live entry replies OK with the stored value and
removes the entry, so a subsequent READ of the key replies NOT_FOUND; on an
absent key it replies NOT_FOUND and leaves the store unchanged. -/
theorem c5_read_and_delete (s : ServerState) (now now2 : Nat)
    (msgId msgId2 key value value2 : List Nat) :
    (∀ entry, cacheGet s.cache key = some entry →
      handleMessage s now msgId MSG_READ_AND_DELETE key value =
        (⟨msgId, RES_OK, entry.value⟩,
         { s with cache := cacheErase s.cache key }) ∧
      handleMessage { s with cache := cacheErase s.cache key } now2 msgId2
          MSG_READ key value2 =
        (⟨msgId2, RES_NOT_FOUND, []⟩,
         { s with cache := cacheErase s.cache key })) ∧
    (cacheGet s.cache key = none →
      handleMessage s now msgId MSG_READ_AND_DELETE key value =
        (⟨msgId, RES_NOT_FOUND, []⟩, s)) := by
  refine ⟨fun entry h => ⟨?_, ?_⟩, fun h => ?_⟩
  · simp [handleMessage, MSG_READ_AND_DELETE, MSG_WRITE, MSG_READ, h]
  · simp [handleMessage, MSG_READ, MSG_WRITE, MSG_READ_AND_DELETE,
      cacheGet_cacheErase]
  · simp [handleMessage, MSG_READ_AND_DELETE, MSG_WRITE, MSG_READ, h]

/-- C5 witness: READ_AND_DELETE of a present key returns its value and
removes it, the following READ returns NOT_FOUND; on an absent key it
returns NOT_FOUND and changes nothing. -/
theorem c5_read_and_delete_witness :
    handleMessage ⟨[([107], ⟨[118], 60⟩)], 60000⟩ 5
        [0, 0, 0, 0, 0, 0, 0, 4] MSG_READ_AND_DELETE [107] [] =
      (⟨[0, 0, 0, 0, 0, 0, 0, 4], RES_OK, [118]⟩, ⟨[], 60000⟩) ∧
    handleMessage ⟨[], 60000⟩ 6 [0, 0, 0, 0, 0, 0, 0, 5] MSG_READ [107] [] =
      (⟨[0, 0, 0, 0, 0, 0, 0, 5], RES_NOT_FOUND, []⟩, ⟨[], 60000⟩) ∧
    handleMessage ⟨[], 60000⟩ 7 [0, 0, 0, 0, 0, 0, 0, 6]
        MSG_READ_AND_DELETE [109] [] =
      (⟨[0, 0, 0, 0, 0, 0, 0, 6], RES_NOT_FOUND, []⟩, ⟨[], 60000⟩) := by
  have h := (c5_read_and_delete ⟨[([107], ⟨[118], 60⟩)], 60000⟩ 5 6
    [0, 0, 0, 0, 0, 0, 0, 4] [0, 0, 0, 0, 0, 0, 0, 5] [107] [] []).1
    ⟨[118], 60⟩ (by decide)
  have h2 := (c5_read_and_delete ⟨[], 60000⟩ 7 0 [0, 0, 0, 0, 0, 0, 0, 6]
    [] [109] [] []).2 (by decide)
  exact ⟨h.1, h.2, h2⟩


/-- C6: an entry written at time `t` with lifetime `L` is readable at every
instant before `t + L` and absent strictly after `t + L` (no intervening
write); rewriting the key at `t2` before the deadline cancels the old expiry
and schedules the new deadline at `t2 + L`, measured from the rewrite. -/
theorem c6_expiry (s : ServerState) (t L : Nat) (key value : List Nat)
    (hL : s.maxLifetimeMs = L) :
    (∀ u, u < t + L →
      readAt (serverWrite s t key value) u key = some value) ∧
    (∀ u, t + L < u →
      readAt (serverWrite s t key value) u key = none) ∧
    (∀ t2 v2, t2 < t + L →
      (serverWrite (serverWrite s t key value) t2 key v2).cache.filter
          (fun p => p.1 == key) = [(key, ⟨v2, t2 + L⟩)]) := by
  refine ⟨fun u hu => ?_, fun u hu => ?_, fun t2 v2 _ => ?_⟩
  · rw [readAt, liveCache, serverWrite, hL]
    simp [List.filter_cons, hu, cacheGet_cons_self]
  · rw [readAt, liveCache, serverWrite, hL]
    simp [List.filter_cons, show ¬ u < t + L by omega,
      cacheGet_filter_cacheErase]
  · simp [serverWrite, hL, filter_key_cacheErase]

/-- C6 witness: with lifetime 100, a key written at time 10 is readable at
time 50, absent at time 200, and a rewrite at time 50 re-arms the deadline
to 150. -/
theorem c6_expiry_witness :
    readAt (serverWrite ⟨[], 100⟩ 10 [107] [118]) 50 [107] = some [118] ∧
    readAt (serverWrite ⟨[], 100⟩ 10 [107] [118]) 200 [107] = none ∧
    (serverWrite (serverWrite ⟨[], 100⟩ 10 [107] [118]) 50 [107]
        [119]).cache.filter (fun p => p.1 == [107]) =
      [([107], ⟨[119], 150⟩)] := by
  have h := c6_expiry ⟨[], 100⟩ 10 100 [107] [118] rfl
  exact ⟨h.1 50 (by decide), h.2.1 200 (by decide),
    h.2.2 50 [119] (by decide)⟩

/-- C7: a frame whose byte at the header-computed boundary is not the
sentinel draws an ERROR response carrying that frame's 8-byte id and the
diagnostic payload; exactly that frame's bytes are consumed, and the rest of
the stream — in particular a following well-formed frame — is processed
normally. -/
theorem c7_bad_end_marker (s : ServerState) (now : Nat) (u t : List Nat)
    (msgId2 : List Nat) (msgType2 : Nat) (key2 value2 : List Nat)
    (hlen : u.length = 18 + readBE u 9 4 + readBE u 13 4)
    (hb : u.getD (u.length - 1) 0 ≠ END_MARKER)
    (hid2 : msgId2.length = 8) (hk2 : key2.length < 2 ^ 32)
    (hv2 : value2.length < 2 ^ 32) :
    processBuffer s now (u ++ t) =
      { frames := .badMarker (u.take 8) :: (processBuffer s now t).frames,
        responses := ⟨u.take 8, RES_ERROR, utf8Bytes "Invalid end marker"⟩ ::
          (processBuffer s now t).responses,
        state := (processBuffer s now t).state,
        rest := (processBuffer s now t).rest } ∧
    processBuffer s now (u ++ encodeRequest msgId2 msgType2 key2 value2) =
      { frames := [.badMarker (u.take 8), .ok msgId2 msgType2 key2 value2],
        responses := [⟨u.take 8, RES_ERROR, utf8Bytes "Invalid end marker"⟩,
          (handleMessage s now msgId2 msgType2 key2 value2).1],
        state := (handleMessage s now msgId2 msgType2 key2 value2).2,
        rest := [] } := by
  refine ⟨processBuffer_badMarker s now u t hlen hb, ?_⟩
  rw [processBuffer_badMarker s now u _ hlen hb,
    ← List.append_nil (encodeRequest msgId2 msgType2 key2 value2),
    processBuffer_frame s now msgId2 msgType2 key2 value2 [] hid2 hk2 hv2,
    processBuffer_short _ now [] (by simp)]

/-- C7 witness: a concrete 19-byte frame ending in 0x00 instead of 0xFF
draws the ERROR and is discarded, and a following well-formed WRITE frame on
the same stream is still extracted and handled. -/
theorem c7_bad_end_marker_witness :
    processBuffer ⟨[], 60000⟩ 0
        ([0, 0, 0, 0, 0, 0, 0, 9, 1, 0, 0, 0, 1, 0, 0, 0, 0, 107, 0] ++ []) =
      { frames := [.badMarker [0, 0, 0, 0, 0, 0, 0, 9]],
        responses := [⟨[0, 0, 0, 0, 0, 0, 0, 9], RES_ERROR,
          utf8Bytes "Invalid end marker"⟩],
        state := ⟨[], 60000⟩,
        rest := [] } ∧
    processBuffer ⟨[], 60000⟩ 0
        ([0, 0, 0, 0, 0, 0, 0, 9, 1, 0, 0, 0, 1, 0, 0, 0, 0, 107, 0] ++
          encodeRequest [0, 0, 0, 0, 0, 0, 0, 2] 0 [107] [118]) =
      { frames := [.badMarker [0, 0, 0, 0, 0, 0, 0, 9],
          .ok [0, 0, 0, 0, 0, 0, 0, 2] 0 [107] [118]],
        responses := [⟨[0, 0, 0, 0, 0, 0, 0, 9], RES_ERROR,
          utf8Bytes "Invalid end marker"⟩,
          (handleMessage ⟨[], 60000⟩ 0 [0, 0, 0, 0, 0, 0, 0, 2] 0
            [107] [118]).1],
        state := (handleMessage ⟨[], 60000⟩ 0 [0, 0, 0, 0, 0, 0, 0, 2] 0
          [107] [118]).2,
        rest := [] } := by
  have h := c7_bad_end_marker ⟨[], 60000⟩ 0
    [0, 0, 0, 0, 0, 0, 0, 9, 1, 0, 0, 0, 1, 0, 0, 0, 0, 107, 0] []
    [0, 0, 0, 0, 0, 0, 0, 2] 0 [107] [118]
    (by decide) (by decide) (by decide) (by decide) (by decide)
  refine ⟨?_, h.2⟩
  rw [h.1, processBuffer_short _ 0 [] (by simp)]
  rfl

/-- C8: an unrecognized type byte draws an ERROR response whose payload
names the type, leaving the store unchanged; in particular type byte 0x99
yields an ERROR whose payload contains the text "0x99". -/
theorem c8_unknown_type (s : ServerState) (now : Nat)
    (msgId key value : List Nat) (msgType : Nat)
    (h0 : msgType ≠ MSG_WRITE) (h1 : msgType ≠ MSG_READ)
    (h2 : msgType ≠ MSG_READ_AND_DELETE) :
    handleMessage s now msgId msgType key value =
      (⟨msgId, RES_ERROR,
        utf8Bytes ("Unknown message type: 0x" ++ hexString msgType)⟩, s) ∧
    (handleMessage s now msgId 0x99 key value).1.status = RES_ERROR ∧
    (∃ pre post, (handleMessage s now msgId 0x99 key value).1.payload =
      pre ++ utf8Bytes "0x99" ++ post) ∧
    (handleMessage s now msgId 0x99 key value).2 = s := by
  have hgen : ∀ ty, ty ≠ MSG_WRITE → ty ≠ MSG_READ →
      ty ≠ MSG_READ_AND_DELETE →
      handleMessage s now msgId ty key value =
        (⟨msgId, RES_ERROR,
          utf8Bytes ("Unknown message type: 0x" ++ hexString ty)⟩, s) := by
    intro ty g0 g1 g2
    simp [handleMessage, g0, g1, g2]
  refine ⟨hgen msgType h0 h1 h2, ?_, ?_, ?_⟩
  · rw [hgen 0x99 (by decide) (by decide) (by decide)]
  · rw [hgen 0x99 (by decide) (by decide) (by decide)]
    refine ⟨utf8Bytes "Unknown message type: ", [], ?_⟩
    show utf8Bytes ("Unknown message type: 0x" ++ hexString 0x99) =
      utf8Bytes "Unknown message type: " ++ utf8Bytes "0x99" ++ []
    decide
  · rw [hgen 0x99 (by decide) (by decide) (by decide)]

/-- C8 witness: type byte 0x05 draws the naming ERROR, and the concrete
0x99 consequences hold for a concrete state and id. -/
theorem c8_unknown_type_witness :
    handleMessage ⟨[], 60000⟩ 0 [0, 0, 0, 0, 0, 0, 0, 7] 0x05 [107] [] =
      (⟨[0, 0, 0, 0, 0, 0, 0, 7], RES_ERROR,
        utf8Bytes ("Unknown message type: 0x" ++ hexString 0x05)⟩,
       ⟨[], 60000⟩) ∧
    (handleMessage ⟨[], 60000⟩ 0 [0, 0, 0, 0, 0, 0, 0, 7] 0x99 [107]
      []).1.status = RES_ERROR ∧
    (∃ pre post, (handleMessage ⟨[], 60000⟩ 0 [0, 0, 0, 0, 0, 0, 0, 7] 0x99
      [107] []).1.payload = pre ++ utf8Bytes "0x99" ++ post) ∧
    (handleMessage ⟨[], 60000⟩ 0 [0, 0, 0, 0, 0, 0, 0, 7] 0x99 [107]
      []).2 = ⟨[], 60000⟩ :=
  c8_unknown_type ⟨[], 60000⟩ 0 [0, 0, 0, 0, 0, 0, 0, 7] [107] [] 0x05
    (by decide) (by decide) (by decide)


/-- C9: a response frame whose id matches a pending request removes the
pending entry and settles it exactly once — OK resolves with the payload,
NOT_FOUND resolves with an explicit absent result, ERROR rejects with the
diagnostic text; a response matching no pending entry is dropped with no
other effect; on close or error every pending request is rejected and the
pending map cleared. -/
theorem c9_settlement (P : List (List Nat)) (msgId payload : List Nat)
    (st : Nat) (c : ClientState) (hid : msgId.length = 8)
    (hpl : payload.length < 2 ^ 32) :
    (msgId ∈ P →
      clientProcessBuffer P (encodeResponse ⟨msgId, RES_OK, payload⟩) =
        ⟨[(msgId, RES_OK, payload)], [.resolved msgId payload],
         P.erase msgId, []⟩ ∧
      clientProcessBuffer P (encodeResponse ⟨msgId, RES_NOT_FOUND, payload⟩) =
        ⟨[(msgId, RES_NOT_FOUND, payload)], [.resolvedAbsent msgId],
         P.erase msgId, []⟩ ∧
      clientProcessBuffer P (encodeResponse ⟨msgId, RES_ERROR, payload⟩) =
        ⟨[(msgId, RES_ERROR, payload)], [.rejected msgId payload],
         P.erase msgId, []⟩) ∧
    (msgId ∉ P →
      clientProcessBuffer P (encodeResponse ⟨msgId, st, payload⟩) =
        ⟨[(msgId, st, payload)], [], P, []⟩) ∧
    handleClose c = (c.pending.map .rejectedClosed,
      { c with connected := false, pending := [] }) ∧
    handleSocketError c = (c.pending.map .rejectedError,
      { c with pending := [] }) := by
  have hframe : ∀ st' : Nat,
      clientProcessBuffer P (encodeResponse ⟨msgId, st', payload⟩) =
        ⟨[(msgId, st', payload)], (settleResponse P msgId st' payload).1,
         (settleResponse P msgId st' payload).2, []⟩ := by
    intro st'
    have h := clientProcessBuffer_frame P ⟨msgId, st', payload⟩ [] hid hpl
    rw [List.append_nil] at h
    rw [h, clientProcessBuffer_short _ [] (by simp)]
    simp
  refine ⟨fun hmem => ⟨?_, ?_, ?_⟩, fun hnot => ?_, rfl, rfl⟩
  · rw [hframe RES_OK]
    simp [settleResponse, hmem, RES_OK]
  · rw [hframe RES_NOT_FOUND]
    simp [settleResponse, hmem, RES_OK, RES_NOT_FOUND]
  · rw [hframe RES_ERROR]
    simp [settleResponse, hmem, RES_OK, RES_NOT_FOUND, RES_ERROR]
  · rw [hframe st]
    simp [settleResponse, hnot]

/-- C9 witness: a matching OK, NOT_FOUND and ERROR response each settle the
one pending request; a response with an unknown id is dropped; a close
rejects the whole pending map. -/
theorem c9_settlement_witness :
    clientProcessBuffer [[0, 0, 0, 0, 0, 0, 0, 1]]
        (encodeResponse ⟨[0, 0, 0, 0, 0, 0, 0, 1], RES_OK, [118]⟩) =
      ⟨[([0, 0, 0, 0, 0, 0, 0, 1], RES_OK, [118])],
       [.resolved [0, 0, 0, 0, 0, 0, 0, 1] [118]], [], []⟩ ∧
    clientProcessBuffer [[0, 0, 0, 0, 0, 0, 0, 1]]
        (encodeResponse ⟨[0, 0, 0, 0, 0, 0, 0, 1], RES_NOT_FOUND, [118]⟩) =
      ⟨[([0, 0, 0, 0, 0, 0, 0, 1], RES_NOT_FOUND, [118])],
       [.resolvedAbsent [0, 0, 0, 0, 0, 0, 0, 1]], [], []⟩ ∧
    clientProcessBuffer [[0, 0, 0, 0, 0, 0, 0, 1]]
        (encodeResponse ⟨[0, 0, 0, 0, 0, 0, 0, 1], RES_ERROR, [118]⟩) =
      ⟨[([0, 0, 0, 0, 0, 0, 0, 1], RES_ERROR, [118])],
       [.rejected [0, 0, 0, 0, 0, 0, 0, 1] [118]], [], []⟩ ∧
    clientProcessBuffer [[0, 0, 0, 0, 0, 0, 0, 1]]
        (encodeResponse ⟨[0, 0, 0, 0, 0, 0, 0, 2], RES_OK, [118]⟩) =
      ⟨[([0, 0, 0, 0, 0, 0, 0, 2], RES_OK, [118])], [],
       [[0, 0, 0, 0, 0, 0, 0, 1]], []⟩ ∧
    handleClose ⟨true, true, 2, [[0, 0, 0, 0, 0, 0, 0, 9]], []⟩ =
      ([.rejectedClosed [0, 0, 0, 0, 0, 0, 0, 9]],
       ⟨false, true, 2, [], []⟩) := by
  have h1 := (c9_settlement [[0, 0, 0, 0, 0, 0, 0, 1]]
    [0, 0, 0, 0, 0, 0, 0, 1] [118] RES_OK
    ⟨true, true, 2, [[0, 0, 0, 0, 0, 0, 0, 9]], []⟩
    (by decide) (by decide)).1 (by decide)
  have h2 := c9_settlement [[0, 0, 0, 0, 0, 0, 0, 1]]
    [0, 0, 0, 0, 0, 0, 0, 2] [118] RES_OK
    ⟨true, true, 2, [[0, 0, 0, 0, 0, 0, 0, 9]], []⟩
    (by decide) (by decide)
  exact ⟨h1.1, h1.2.1, h1.2.2, h2.2.1 (by decide), h2.2.2.1⟩

/-- C10: the request id is the 8-byte big-endian rendering of a counter that
increments by one per sent request; neither the close nor the error handler
resets the counter; below 2^64 distinct counter values give distinct 8-byte
ids, so no late response can be mis-correlated after a reconnect. -/
theorem c10_id_counter (c : ClientState) (key value : List Nat)
    (msgType : Nat) (hc : c.connected = true) :
    sendRequest c msgType key value =
      some (beBytes 8 c.nextId,
        encodeRequest (beBytes 8 c.nextId) msgType key value,
        { c with nextId := c.nextId + 1,
                 pending := c.pending ++ [beBytes 8 c.nextId] }) ∧
    (handleClose c).2.nextId = c.nextId ∧
    (handleSocketError c).2.nextId = c.nextId ∧
    (∀ i j : Nat, i < 2 ^ 64 → j < 2 ^ 64 → i ≠ j →
      beBytes 8 i ≠ beBytes 8 j) := by
  refine ⟨?_, rfl, rfl, fun i j hi hj hne heq => ?_⟩
  · simp [sendRequest, hc, nextMsgId]
  · exact hne (by rw [← beVal_beBytes8 i hi, ← beVal_beBytes8 j hj, heq])

/-- C10 witness: from a connected client with counter 5 a send uses id
beBytes 8 5 and bumps the counter to 6; close and error keep the counter;
two small distinct counter values give distinct ids. -/
theorem c10_id_counter_witness :
    sendRequest ⟨true, true, 5, [], []⟩ 0 [107] [118] =
      some (beBytes 8 5, encodeRequest (beBytes 8 5) 0 [107] [118],
        ⟨true, true, 6, [beBytes 8 5], []⟩) ∧
    (handleClose ⟨true, true, 5, [], []⟩).2.nextId = 5 ∧
    (handleSocketError ⟨true, true, 5, [], []⟩).2.nextId = 5 ∧
    beBytes 8 3 ≠ beBytes 8 4 := by
  have h := c10_id_counter ⟨true, true, 5, [], []⟩ [107] [118] 0 rfl
  exact ⟨h.1, h.2.1, h.2.2.1, h.2.2.2 3 4 (by decide) (by decide) (by decide)⟩

end NetCache
